import Mathlib

/-!
Verification of the wish-operator reservation model.

Shallow embedding of the Go sources of `lexfrei/wish-operator`:
time instants and durations are modelled as `Int` (nanoseconds), Go `nil`
pointers as `Option`, and Go slices as `List`.  The functions present in
`src/api/v1alpha1/wish_types.go`, `src/internal/controller/wish_controller.go`
and `src/internal/web/server.go` are translated directly from that source.
The multi-reservation capacity model (`GetQuantity`, `TotalReserved`,
`AvailableQuantity`, `IsFullyReserved`, `ActiveReservations`,
`NextReservationExpiry`) and the multi-reservation reconciliation steps
(legacy migration and expired-reservation sweep) exist in the repository only
through their tests and callers; those are modelled from the specification and
are marked `Modelled from the spec:` in their doc comments.
-/

namespace WishOperator

/-- One hour in nanoseconds (Go `time.Hour`).  Instants and durations are
both modelled as `Int` nanoseconds. -/
def timeHour : Int := 3600 * 1000000000

/-- A single reservation record (`Reservation` in `wish_types.go`, new format):
quantity, creation instant and expiry instant. -/
structure Reservation where
  quantity : Int
  createdAt : Int
  expiresAt : Int
deriving Repr, DecidableEq

/-- The wish spec fields relevant to the reservation/capacity model
(`WishSpec` in `wish_types.go`).  `quantity` is the stock count (zero means
the field was unset); `ttl` is the optional time-to-live. -/
structure WishSpec where
  title : String
  priority : Int
  ttl : Option Int
  quantity : Int
deriving Repr, DecidableEq

/-- The wish status (`WishStatus` in `wish_types.go`): the deprecated legacy
single-reservation fields (`reserved`, `reservedAt`, `reservationExpires`),
the derived `active` flag, and the multi-reservation list. -/
structure WishStatus where
  reserved : Bool
  reservedAt : Option Int
  reservationExpires : Option Int
  active : Bool
  reservations : List Reservation
deriving Repr, DecidableEq

/-- A wish object (`Wish` in `wish_types.go`): creation timestamp from the
object metadata, spec and status. -/
structure Wish where
  creationTimestamp : Int
  spec : WishSpec
  status : WishStatus
deriving Repr, DecidableEq

/-- From `wish_types.go` (`IsReservationExpired`): the legacy reservation is
expired when the legacy `Reserved` flag is set, the legacy expiry pointer is
non-nil, and the current instant is strictly after the stored expiry
(`time.Now().After(...)`). -/
def Wish.IsReservationExpired (w : Wish) (now : Int) : Bool :=
  if !w.status.reserved then
    false
  else
    match w.status.reservationExpires with
    | none => false
    | some expires => decide (expires < now)

/-- From `wish_types.go` (`IsExpired`): the wish has exceeded its TTL when a
TTL is set and the current instant is strictly after
`CreationTimestamp + TTL`. -/
def Wish.IsExpired (w : Wish) (now : Int) : Bool :=
  match w.spec.ttl with
  | none => false
  | some ttl => decide (w.creationTimestamp + ttl < now)

/-- Modelled from the spec: `GetQuantity` (the effective quantity) of the
multi-reservation `wish_types.go` is not under `src/` (only its tests in
`wish_types_test.go` and its callers in `server.go` are).  Spec 4.1:
"returns `spec.quantity` if positive, else `1`". -/
def Wish.GetQuantity (w : Wish) : Int :=
  if 0 < w.spec.quantity then w.spec.quantity else 1

/-- Modelled from the spec: `TotalReserved` of the multi-reservation
`wish_types.go` is not under `src/`.  Spec 4.1: "sum of `quantity` over all
reservations (expired or not) currently stored -- deliberately unfiltered". -/
def Wish.TotalReserved (w : Wish) : Int :=
  (w.status.reservations.map fun r => r.quantity).sum

/-- Modelled from the spec: `AvailableQuantity` of the multi-reservation
`wish_types.go` is not under `src/`.  Spec 4.1:
"`max(0, EffectiveQuantity() - TotalReserved())`", written as the Go code
would compute it (subtract, then clamp negative results to zero). -/
def Wish.AvailableQuantity (w : Wish) : Int :=
  let available := w.GetQuantity - w.TotalReserved
  if available < 0 then 0 else available

/-- Modelled from the spec: `IsFullyReserved` of the multi-reservation
`wish_types.go` is not under `src/`.  Spec 4.1: "`AvailableQuantity() == 0`". -/
def Wish.IsFullyReserved (w : Wish) : Bool :=
  decide (w.AvailableQuantity = 0)

/-- Modelled from the spec: `ActiveReservations` of the multi-reservation
`wish_types.go` is not under `src/`.  Spec 4.1: "reservations whose
`expires_at` is strictly after now ... preserve input order". -/
def Wish.ActiveReservations (w : Wish) (now : Int) : List Reservation :=
  w.status.reservations.filter fun r => decide (now < r.expiresAt)

/-- One step of the Go loop inside `NextReservationExpiry`: keep the earliest
expiry seen so far, the first occurrence winning ties (strict `Before`). -/
def nextExpiryStep (earliest : Option Int) (r : Reservation) : Option Int :=
  match earliest with
  | none => some r.expiresAt
  | some e => if r.expiresAt < e then some r.expiresAt else some e

/-- Modelled from the spec: `NextReservationExpiry` of the multi-reservation
`wish_types.go` is not under `src/`.  Spec 4.1: "the earliest `expires_at`
among all reservations, or none if the list is empty; ties broken by input
order (first occurrence wins)".  Written as the Go loop folding over the
slice. -/
def Wish.NextReservationExpiry (w : Wish) : Option Int :=
  w.status.reservations.foldl nextExpiryStep none

/-- Result of one reconciliation pass of the controller under `src/`
(`wish_controller.go`): the possibly updated wish, the computed
`RequeueAfter` delay (`0` meaning no scheduled wake) and whether the status
was marked changed. -/
structure SrcReconcileResult where
  wish : Wish
  requeueAfter : Int
  statusChanged : Bool
deriving Repr, DecidableEq

/-- From `wish_controller.go` (`Reconcile`), the status computation after a
successful load, translated statement by statement: recompute `Active` from
`IsExpired`; fold the TTL remainder into `requeueAfter` when active, a TTL is
set and the remainder is positive; clear the legacy reservation fields when
`IsReservationExpired`; fold the legacy reservation remainder into
`requeueAfter` when still reserved with a non-nil expiry and a positive
remainder. -/
def srcReconcile (w : Wish) (now : Int) : SrcReconcileResult :=
  let isActive := !(w.IsExpired now)
  let step1 :=
    if w.status.active != isActive then
      ({ w with status := { w.status with active := isActive } }, true)
    else
      (w, false)
  let w1 := step1.1
  let changed1 := step1.2
  let requeue1 : Int :=
    if isActive then
      match w1.spec.ttl with
      | some ttl =>
        let remaining := w1.creationTimestamp + ttl - now
        if 0 < remaining then remaining else 0
      | none => 0
    else 0
  let step2 :=
    if w1.IsReservationExpired now then
      ({ w1 with status := { w1.status with
          reserved := false, reservedAt := none, reservationExpires := none } },
        true)
    else
      (w1, changed1)
  let w2 := step2.1
  let changed2 := step2.2
  let requeue2 : Int :=
    if w2.status.reserved then
      match w2.status.reservationExpires with
      | some expires =>
        let remaining := expires - now
        if 0 < remaining then
          if requeue1 = 0 ∨ remaining < requeue1 then remaining else requeue1
        else requeue1
      | none => requeue1
    else requeue1
  { wish := w2, requeueAfter := requeue2, statusChanged := changed2 }

/-- Modelled from the spec: the legacy-migration step of the multi-reservation
controller is not under `src/` (the `wish_controller.go` present predates the
multi-reservation model; only the migration test, at "should migrate and
clear expired legacy reservation", is).  Spec 4.3 step 3: "If a legacy
single-reservation record is present and the multi-reservation list is empty,
convert it into exactly one Reservation (using the legacy
created-at/expires-at), clear the legacy fields". -/
def migrateLegacy (w : Wish) : Wish :=
  if w.status.reserved ∧ w.status.reservations = [] then
    match w.status.reservedAt, w.status.reservationExpires with
    | some createdAt, some expiresAt =>
      { w with status := { w.status with
          reservations := [{ quantity := 1, createdAt := createdAt, expiresAt := expiresAt }],
          reserved := false, reservedAt := none, reservationExpires := none } }
    | _, _ => w
  else w

/-- One step of the Go sweep loop: keep the reservation when its expiry is
strictly in the future, appending in input order. -/
def sweepStep (now : Int) (kept : List Reservation) (r : Reservation) : List Reservation :=
  if now < r.expiresAt then kept ++ [r] else kept

/-- Modelled from the spec: the expired-reservation sweep of the
multi-reservation controller is not under `src/` (only its tests are).
Spec 4.3 step 4: "remove every reservation with `expires_at <= now`", written
as the Go loop rebuilding the slice in input order. -/
def sweepReservations (rs : List Reservation) (now : Int) : List Reservation :=
  rs.foldl (sweepStep now) []

/-- Modelled from the spec: the status computation of the multi-reservation
controller (spec 4.3 steps 2 to 4) is not under `src/`.  Recompute the
`active` flag from the source function `IsExpired`, run the legacy migration,
then sweep the expired reservations. -/
def reconcileStatusUpdate (w : Wish) (now : Int) : Wish :=
  let w1 := { w with status := { w.status with active := !(w.IsExpired now) } }
  let w2 := migrateLegacy w1
  { w2 with status := { w2.status with
      reservations := sweepReservations w2.status.reservations now } }

/-- Minimum number of whole weeks accepted by the reserve endpoint
(`minWeeks` in `server.go`). -/
def minWeeks : Int := 1

/-- Maximum number of whole weeks accepted by the reserve endpoint
(`maxWeeks` in `server.go`). -/
def maxWeeks : Int := 8

/-- The response the reserve handler in `server.go` produces, one constructor
per `http.Error`/render exit of `handleReserve`. -/
inductive ReserveResponse where
  /-- HTTP 400, weeks missing, non-numeric or outside `[minWeeks, maxWeeks]`. -/
  | badRequestWeeks
  /-- HTTP 400, quantity non-numeric or below `1`. -/
  | badRequestQuantity
  /-- HTTP 404, no wish with the requested name. -/
  | notFound
  /-- HTTP 409, `AvailableQuantity() == 0` (message `err_fully_reserved`). -/
  | fullyReserved
  /-- HTTP 400, requested quantity above the reported availability
  (message `err_quantity_exceeds`). -/
  | quantityExceeds (available : Int)
  /-- HTTP 500, the status update was rejected by the store
  (message `err_reserve_failed`). -/
  | reserveFailed
  /-- HTTP 200, the updated wish rendered back to the caller. -/
  | ok (updated : Wish)
deriving Repr, DecidableEq

/-- Observable outcome of one call to `handleReserve`: the HTTP response,
how many times the wish was read from the store, and the object passed to
the store update when one was attempted. -/
structure ReserveOutcome where
  response : ReserveResponse
  storeGets : Nat
  storeWrite : Option Wish
deriving Repr, DecidableEq

/-- The part of `handleReserve` in `server.go` after the wish was loaded:
check `AvailableQuantity`, reject with 409 when zero, reject with 400 when
the requested quantity exceeds it, otherwise append one reservation
(`created_at = now`, `expires_at = now + weeks * 7 * 24h`) and attempt a
single status update; a rejected update yields HTTP 500 with no retry. -/
def reserveLoaded (wish : Wish) (quantity weeks : Int) (now : Int)
    (updateAccepted : Bool) : ReserveOutcome :=
  let available := wish.AvailableQuantity
  if available = 0 then
    { response := .fullyReserved, storeGets := 1, storeWrite := none }
  else if available < quantity then
    { response := .quantityExceeds available, storeGets := 1, storeWrite := none }
  else
    let expires := now + weeks * (7 * 24 * timeHour)
    let updated := { wish with status := { wish.status with
        reservations := wish.status.reservations ++
          [{ quantity := quantity, createdAt := now, expiresAt := expires }] } }
    if updateAccepted then
      { response := .ok updated, storeGets := 1, storeWrite := some updated }
    else
      { response := .reserveFailed, storeGets := 1, storeWrite := some updated }

/-- From `server.go` (`handleReserve`): validate `weeks` (integer in
`[minWeeks, maxWeeks]`), validate `quantity` (defaults to `1` when the form
field is absent, must be at least `1` when present), perform one store get
(`stored = none` models a not-found name), then run the availability check
and the single conditional update.  `updateAccepted` tells whether the store
accepted that update. -/
def handleReserve (stored : Option Wish) (weeks : Int) (quantityField : Option Int)
    (now : Int) (updateAccepted : Bool) : ReserveOutcome :=
  if weeks < minWeeks ∨ maxWeeks < weeks then
    { response := .badRequestWeeks, storeGets := 0, storeWrite := none }
  else
    match quantityField with
    | some q =>
      if q < 1 then
        { response := .badRequestQuantity, storeGets := 0, storeWrite := none }
      else
        match stored with
        | none => { response := .notFound, storeGets := 1, storeWrite := none }
        | some wish => reserveLoaded wish q weeks now updateAccepted
    | none =>
      match stored with
      | none => { response := .notFound, storeGets := 1, storeWrite := none }
      | some wish => reserveLoaded wish 1 weeks now updateAccepted

/-- A wish with empty status used to instantiate universally quantified
theorems at concrete inputs. -/
def emptyStatus : WishStatus :=
  { reserved := false, reservedAt := none, reservationExpires := none,
    active := false, reservations := [] }

/-- Demo wish for the C3 witness: quantity left at its zero value. -/
def demoWishDefaultQty : Wish :=
  { creationTimestamp := 0,
    spec := { title := "demo", priority := 0, ttl := none, quantity := 0 },
    status := emptyStatus }

/-- Demo wish for the C4 witness: no reservations stored. -/
def demoWishNoReservations : Wish :=
  { creationTimestamp := 0,
    spec := { title := "demo", priority := 0, ttl := none, quantity := 3 },
    status := emptyStatus }

/-- Demo wish for the C5 witness: one reservation expired at the boundary,
one still active. -/
def demoWishMixed : Wish :=
  { creationTimestamp := 0,
    spec := { title := "demo", priority := 0, ttl := none, quantity := 10 },
    status := { emptyStatus with reservations :=
      [{ quantity := 2, createdAt := -10, expiresAt := 0 },
       { quantity := 3, createdAt := -10, expiresAt := 50 }] } }

/-- A wish with its derived `active` flag replaced; used to state closed
forms of the reconciler output. -/
def setActive (w : Wish) (b : Bool) : Wish :=
  { w with status := { w.status with active := b } }

/-- A wish with its legacy reservation fields cleared; used to state closed
forms of the reconciler output. -/
def clearLegacy (w : Wish) : Wish :=
  { w with status := { w.status with
      reserved := false, reservedAt := none, reservationExpires := none } }

/-- Demo wish for the C6 witness: `ttl = 24h`, created at instant `0`. -/
def demoWishTtl : Wish :=
  { creationTimestamp := 0,
    spec := { title := "demo", priority := 0, ttl := some (24 * timeHour), quantity := 1 },
    status := emptyStatus }

/-- Demo wish for the C10 witness: not reserved, yet carrying an expiry
instant one million hours in the past. -/
def demoWishStaleExpiry : Wish :=
  { creationTimestamp := 0,
    spec := { title := "demo", priority := 0, ttl := none, quantity := 1 },
    status := { emptyStatus with reservationExpires := some (-(1000000 * timeHour)) } }

/-- The TTL contribution to `requeueAfter` in the `src/` controller, as the
code computes it before the reservation candidate is folded in. -/
def requeueFromTtl (w : Wish) (now : Int) : Int :=
  if !(w.IsExpired now) then
    match w.spec.ttl with
    | some ttl =>
      let remaining := w.creationTimestamp + ttl - now
      if 0 < remaining then remaining else 0
    | none => 0
  else 0

/-- The `requeueAfter` computation of the `src/` controller, expressed on the
input wish (using that the legacy-clear step zeroes the reservation source
exactly when `IsReservationExpired`). -/
def computeRequeue (w : Wish) (now : Int) : Int :=
  let requeue1 : Int := requeueFromTtl w now
  if w.IsReservationExpired now then requeue1
  else
    if w.status.reserved then
      match w.status.reservationExpires with
      | some expires =>
        let remaining := expires - now
        if 0 < remaining then
          if requeue1 = 0 ∨ remaining < requeue1 then remaining else requeue1
        else requeue1
      | none => requeue1
    else requeue1

/-- The wake candidate from the TTL, following spec 4.4: applicable when the
item is active (TTL window not exceeded), a TTL is set, and the remaining
time is strictly positive. -/
def ttlWakeCandidate (w : Wish) (now : Int) : Option Int :=
  match w.spec.ttl with
  | some ttl =>
    if w.IsExpired now = false ∧ 0 < w.creationTimestamp + ttl - now then
      some (w.creationTimestamp + ttl - now)
    else none
  | none => none

/-- The wake candidate from the stored (single, legacy-format) reservation,
following spec 4.4: applicable when a reservation exists (reserved with a
non-nil expiry) whose expiry is strictly in the future. -/
def reservationWakeCandidate (w : Wish) (now : Int) : Option Int :=
  if w.status.reserved = true then
    match w.status.reservationExpires with
    | some expires => if 0 < expires - now then some (expires - now) else none
    | none => none
  else none

/-- Minimum over the applicable optional wake candidates; `0` encodes
"no wake scheduled". -/
def minWakeDelay : Option Int → Option Int → Int
  | none, none => 0
  | some d, none => d
  | none, some d => d
  | some d1, some d2 => min d1 d2

/-- A wish carrying an already-expired legacy reservation record and an
empty multi-reservation list. -/
def legacyExpiredWish : Wish :=
  { creationTimestamp := 0,
    spec := { title := "legacy", priority := 0, ttl := none, quantity := 1 },
    status := { reserved := true, reservedAt := some (-7200),
                reservationExpires := some (-3600),
                active := true, reservations := [] } }

/-- Demo wish for the C8 witness: an unexpired legacy reservation record. -/
def demoLegacyWish : Wish :=
  { creationTimestamp := 0,
    spec := { title := "legacy", priority := 0, ttl := none, quantity := 1 },
    status := { reserved := true, reservedAt := some (-100),
                reservationExpires := some 500,
                active := true, reservations := [] } }

/-- The updated wish built by `handleReserve` on the success path: one new
reservation with `created_at = now`, `expires_at = now + weeks * 7 * 24h`
and the requested quantity, appended to the stored list. -/
def appendReservation (wish : Wish) (quantity now weeks : Int) : Wish :=
  { wish with status := { wish.status with
      reservations := wish.status.reservations ++
        [{ quantity := quantity, createdAt := now,
           expiresAt := now + weeks * (7 * 24 * timeHour) }] } }

/-- Demo wish for the C9 witness, following the testable property of spec 8:
quantity 5 and no reservations. -/
def demoWishFive : Wish :=
  { creationTimestamp := 0,
    spec := { title := "demo", priority := 0, ttl := none, quantity := 5 },
    status := emptyStatus }

/-- Demo wish for the C1 evaluation: available stock, so the handler reaches
the store update. -/
def conflictedWish : Wish :=
  { creationTimestamp := 0,
    spec := { title := "demo", priority := 0, ttl := none, quantity := 5 },
    status := emptyStatus }

/-- Claim C2: for every item (any `spec.quantity` and any reservation list),
`AvailableQuantity()` equals `max(0, EffectiveQuantity() - TotalReserved())`
where `TotalReserved()` sums `quantity` over all stored reservations, expired
or not, and `AvailableQuantity()` is never negative. -/
theorem available_quantity_clamped (w : Wish) :
    w.AvailableQuantity =
      max 0 (w.GetQuantity - (w.status.reservations.map fun r => r.quantity).sum) ∧
    0 ≤ w.AvailableQuantity := by
  unfold Wish.AvailableQuantity Wish.TotalReserved
  dsimp only
  constructor <;> split <;> omega

/-- Claim C3: the effective quantity equals `spec.quantity` when that is
strictly positive and `1` when it is zero or negative; in particular it is
always strictly positive. -/
theorem effective_quantity_default (w : Wish) :
    (0 < w.spec.quantity → w.GetQuantity = w.spec.quantity) ∧
    (w.spec.quantity ≤ 0 → w.GetQuantity = 1) ∧
    0 < w.GetQuantity := by
  unfold Wish.GetQuantity
  refine ⟨fun h => ?_, fun h => ?_, ?_⟩ <;> split <;> omega

/-- Witness for claim C3 at a concrete wish whose quantity field is zero. -/
theorem effective_quantity_default_witness :
    demoWishDefaultQty.GetQuantity = 1 ∧ 0 < demoWishDefaultQty.GetQuantity :=
  ⟨(effective_quantity_default demoWishDefaultQty).2.1 (by decide),
   (effective_quantity_default demoWishDefaultQty).2.2⟩

/-- Folding `min` over a list of integers yields either the seed or a member,
never exceeds the seed, and is a lower bound of the list. -/
theorem foldl_min_spec (l : List Int) (a : Int) :
    (l.foldl min a = a ∨ l.foldl min a ∈ l) ∧
    l.foldl min a ≤ a ∧ ∀ x ∈ l, l.foldl min a ≤ x := by
  induction l generalizing a with
  | nil => simp
  | cons x xs ih =>
    obtain ⟨h1, h2, h3⟩ := ih (min a x)
    simp only [List.foldl_cons, List.mem_cons]
    refine ⟨?_, le_trans h2 (min_le_left a x), ?_⟩
    · rcases h1 with h | h
      · rcases min_choice a x with hm | hm
        · exact Or.inl (h.trans hm)
        · exact Or.inr (Or.inl (h.trans hm))
      · exact Or.inr (Or.inr h)
    · rintro y (rfl | hy)
      · exact le_trans h2 (min_le_right a y)
      · exact h3 y hy

/-- The Go loop of `NextReservationExpiry`, started on a non-empty
accumulator, computes the `min`-fold of the expiry instants. -/
theorem foldl_nextExpiryStep_some (l : List Reservation) (e : Int) :
    l.foldl nextExpiryStep (some e) =
      some ((l.map fun r => r.expiresAt).foldl min e) := by
  induction l generalizing e with
  | nil => rfl
  | cons r l ih =>
    have hstep : nextExpiryStep (some e) r = some (min e r.expiresAt) := by
      simp only [nextExpiryStep]
      rcases lt_or_le r.expiresAt e with h | h
      · rw [if_pos h, min_eq_right (le_of_lt h)]
      · rw [if_neg (not_lt.mpr h), min_eq_left h]
    simp only [List.foldl_cons, List.map_cons, hstep, ih]

/-- A member of an integer list that is also a lower bound is attained at a
first index: every earlier entry is strictly larger. -/
theorem mem_lb_first_index (l : List Int) (v : Int) (hmem : v ∈ l)
    (hlb : ∀ x ∈ l, v ≤ x) :
    ∃ i, ∃ hi : i < l.length, l.get ⟨i, hi⟩ = v ∧
      ∀ j, ∀ hj : j < l.length, j < i → v < l.get ⟨j, hj⟩ := by
  induction l with
  | nil => simp at hmem
  | cons x xs ih =>
    by_cases hx : x = v
    · exact ⟨0, by simp, by simpa using hx, fun j hj hj0 => absurd hj0 (by omega)⟩
    · have hmem2 : v ∈ xs := by
        rcases List.mem_cons.mp hmem with h | h
        · exact absurd h.symm hx
        · exact h
      have hlb2 : ∀ x ∈ xs, v ≤ x := fun y hy => hlb y (List.mem_cons_of_mem _ hy)
      obtain ⟨i, hi, hival, hifirst⟩ := ih hmem2 hlb2
      refine ⟨i + 1, by simpa using Nat.succ_lt_succ hi, by simpa using hival, ?_⟩
      intro j hj hji
      match j with
      | 0 =>
        have : v ≤ x := hlb x (List.mem_cons_self x xs)
        simpa using lt_of_le_of_ne this (fun h => hx h.symm)
      | Nat.succ j =>
        have hj2 : j < xs.length := by simpa using hj
        simpa using hifirst j hj2 (by omega)

/-- Claim C4: `NextReservationExpiry()` returns none exactly when the
reservation list is empty; otherwise it returns the earliest `expires_at`
among all stored reservations, attained at a first index in input order
(every reservation before that index expires strictly later). -/
theorem next_reservation_expiry_spec (w : Wish) :
    (w.status.reservations = [] → w.NextReservationExpiry = none) ∧
    (w.status.reservations ≠ [] → ∃ e, w.NextReservationExpiry = some e) ∧
    ∀ e, w.NextReservationExpiry = some e →
      ∃ i, ∃ hi : i < w.status.reservations.length,
        (w.status.reservations.get ⟨i, hi⟩).expiresAt = e ∧
        (∀ j, ∀ hj : j < w.status.reservations.length,
          e ≤ (w.status.reservations.get ⟨j, hj⟩).expiresAt) ∧
        ∀ j, ∀ hj : j < w.status.reservations.length, j < i →
          e < (w.status.reservations.get ⟨j, hj⟩).expiresAt := by
  unfold Wish.NextReservationExpiry
  refine ⟨fun h => by rw [h]; rfl, ?_, ?_⟩
  · intro hne
    cases h : w.status.reservations with
    | nil => exact absurd h hne
    | cons r l =>
      exact ⟨_, foldl_nextExpiryStep_some l r.expiresAt⟩
  · intro e he
    cases h : w.status.reservations with
    | nil =>
      rw [h] at he
      simp at he
    | cons r l =>
      rw [h] at he
      rw [List.foldl_cons] at he
      have hstep0 : nextExpiryStep none r = some r.expiresAt := rfl
      rw [hstep0, foldl_nextExpiryStep_some] at he
      have hval : (l.map fun x => x.expiresAt).foldl min r.expiresAt = e :=
        Option.some.inj he
      obtain ⟨hm, hle, hlbl⟩ := foldl_min_spec (l.map fun x => x.expiresAt) r.expiresAt
      rw [hval] at hm hle hlbl
      have hmemfull : e ∈ (r :: l).map fun x => x.expiresAt := by
        rcases hm with hm | hm
        · simp [hm]
        · simp only [List.map_cons, List.mem_cons]
          exact Or.inr hm
      have hlbfull : ∀ x ∈ (r :: l).map fun x => x.expiresAt, e ≤ x := by
        intro x hx
        simp only [List.map_cons, List.mem_cons] at hx
        rcases hx with rfl | hx2
        · exact hle
        · exact hlbl x hx2
      obtain ⟨i, him, hival, hifirst⟩ :=
        mem_lb_first_index ((r :: l).map fun x => x.expiresAt) e hmemfull hlbfull
      have hi2 : i < (r :: l).length := by simpa using him
      refine ⟨i, hi2, ?_, ?_, ?_⟩
      · have hkey : ((r :: l).map fun x => x.expiresAt).get ⟨i, him⟩ =
            ((r :: l).get ⟨i, hi2⟩).expiresAt := List.getElem_map _
        exact hkey.symm.trans hival
      · intro j hj
        have hjm : j < ((r :: l).map fun x => x.expiresAt).length := by simpa using hj
        have hmem := hlbfull (((r :: l).map fun x => x.expiresAt).get ⟨j, hjm⟩)
          (List.get_mem _ j hjm)
        have hkey : ((r :: l).map fun x => x.expiresAt).get ⟨j, hjm⟩ =
            ((r :: l).get ⟨j, hj⟩).expiresAt := List.getElem_map _
        exact le_of_le_of_eq hmem hkey
      · intro j hj hji
        have hjm : j < ((r :: l).map fun x => x.expiresAt).length := by simpa using hj
        have hkey : ((r :: l).map fun x => x.expiresAt).get ⟨j, hjm⟩ =
            ((r :: l).get ⟨j, hj⟩).expiresAt := List.getElem_map _
        exact lt_of_lt_of_eq (hifirst j hjm hji) hkey

/-- Witness for claim C4 at a concrete wish with an empty reservation list. -/
theorem next_reservation_expiry_witness :
    demoWishNoReservations.NextReservationExpiry = none :=
  (next_reservation_expiry_spec demoWishNoReservations).1 rfl

/-- The Go sweep loop, started on any accumulator, appends exactly the
filtered kept reservations. -/
theorem foldl_sweepStep (rs : List Reservation) (now : Int) (acc : List Reservation) :
    rs.foldl (sweepStep now) acc = acc ++ rs.filter fun r => decide (now < r.expiresAt) := by
  induction rs generalizing acc with
  | nil => simp
  | cons r l ih =>
    simp only [List.foldl_cons, List.filter_cons]
    by_cases h : now < r.expiresAt
    · rw [show sweepStep now acc r = acc ++ [r] from if_pos h, ih]
      simp [h]
    · rw [show sweepStep now acc r = acc from if_neg h, ih]
      simp [h]

/-- The sweep keeps exactly the reservations with a strictly future expiry,
in input order. -/
theorem sweepReservations_eq_filter (rs : List Reservation) (now : Int) :
    sweepReservations rs now = rs.filter fun r => decide (now < r.expiresAt) := by
  unfold sweepReservations
  simpa using foldl_sweepStep rs now []

/-- Claim C5: for every reservation list and every instant, the active
reservations are exactly the stored ones whose `expires_at` is strictly after
now (so the excluded ones are exactly those with `expires_at <= now`, the
boundary included), one sweep removes exactly the same reservations, and the
surviving reservations keep their original order (the swept list is a sublist
of the input). -/
theorem active_reservations_and_sweep (w : Wish) (now : Int) :
    (∀ r, r ∈ w.ActiveReservations now ↔ r ∈ w.status.reservations ∧ now < r.expiresAt) ∧
    (∀ r ∈ w.status.reservations, r.expiresAt ≤ now → r ∉ w.ActiveReservations now) ∧
    sweepReservations w.status.reservations now = w.ActiveReservations now ∧
    (sweepReservations w.status.reservations now).Sublist w.status.reservations := by
  have hmem : ∀ r, r ∈ w.ActiveReservations now ↔
      r ∈ w.status.reservations ∧ now < r.expiresAt := by
    intro r
    unfold Wish.ActiveReservations
    rw [List.mem_filter]
    simp
  have hsweep : sweepReservations w.status.reservations now = w.ActiveReservations now :=
    sweepReservations_eq_filter w.status.reservations now
  refine ⟨hmem, ?_, hsweep, ?_⟩
  · intro r _ hexp hact
    exact absurd ((hmem r).mp hact).2 (not_lt.mpr hexp)
  · rw [hsweep]
    exact List.filter_sublist _

/-- Witness for claim C5 at a concrete mixed reservation list with `now = 0`:
the sweep result coincides with the active reservations. -/
theorem active_reservations_and_sweep_witness :
    sweepReservations demoWishMixed.status.reservations 0 =
      demoWishMixed.ActiveReservations 0 ∧
    demoWishMixed.ActiveReservations 0 =
      [{ quantity := 3, createdAt := -10, expiresAt := 50 }] :=
  ⟨(active_reservations_and_sweep demoWishMixed 0).2.2.1, by decide⟩

/-- Closed form of the wish produced by the controller under `src/`: the
`active` flag is recomputed from `IsExpired`, and the legacy reservation
fields are cleared exactly when `IsReservationExpired`. -/
theorem srcReconcile_wish_eq (w : Wish) (now : Int) :
    (srcReconcile w now).wish =
      if w.IsReservationExpired now then
        clearLegacy (setActive w (!(w.IsExpired now)))
      else
        setActive w (!(w.IsExpired now)) := by
  have hframe : Wish.IsReservationExpired
      { w with status := { w.status with active := !(w.IsExpired now) } } now =
      w.IsReservationExpired now := rfl
  unfold srcReconcile
  dsimp only
  by_cases h1 : (w.status.active != !(w.IsExpired now)) = true
  · simp only [h1, if_true]
    simp only [hframe]
    by_cases h2 : w.IsReservationExpired now = true
    · simp only [h2, if_true]
      rfl
    · simp only [Bool.not_eq_true] at h2
      simp only [h2, Bool.false_eq_true, if_false]
      rfl
  · simp only [Bool.not_eq_true] at h1
    simp only [h1, Bool.false_eq_true, if_false]
    have hact : w.status.active = !(w.IsExpired now) := by
      have h := h1
      rw [bne_eq_false_iff_eq] at h
      exact h
    by_cases h2 : w.IsReservationExpired now = true
    · simp only [h2, if_true]
      simp only [clearLegacy, setActive]
      cases w with
      | mk c s st =>
        cases st
        dsimp at hact
        dsimp
        rw [hact]
        rfl
    · simp only [Bool.not_eq_true] at h2
      simp only [h2, Bool.false_eq_true, if_false]
      simp only [setActive]
      cases w with
      | mk c s st =>
        cases st
        dsimp at hact
        dsimp
        rw [hact]
        rfl

/-- Claim C6: for every item and instant, the `active` flag computed by the
reconciler equals the negation of (a TTL is set and now is strictly past
`created_at + ttl`); an item without TTL is active regardless of age and an
item whose TTL window elapsed is inactive. -/
theorem reconcile_active_flag (w : Wish) (now : Int) :
    ((srcReconcile w now).wish.status.active = true) ↔
      ¬ ∃ ttl, w.spec.ttl = some ttl ∧ w.creationTimestamp + ttl < now := by
  have hwish := srcReconcile_wish_eq w now
  have hact : (srcReconcile w now).wish.status.active = !(w.IsExpired now) := by
    rw [hwish]
    by_cases h2 : w.IsReservationExpired now = true
    · rw [if_pos h2]
      rfl
    · rw [if_neg h2]
      rfl
  rw [hact]
  unfold Wish.IsExpired
  cases h : w.spec.ttl with
  | none => simp [h]
  | some ttl => simp [h]

/-- Witness for claim C6 at a concrete item: `ttl = 24h`, created at instant
`0`, reconciled 48 hours later, comes out inactive. -/
theorem reconcile_active_flag_witness :
    (srcReconcile demoWishTtl (48 * timeHour)).wish.status.active = false := by
  have h := reconcile_active_flag demoWishTtl (48 * timeHour)
  have h2 : ¬ ((srcReconcile demoWishTtl (48 * timeHour)).wish.status.active = true) := by
    rw [h]
    exact not_not_intro ⟨24 * timeHour, rfl, by decide⟩
  simpa using h2

/-- Claim C10: `IsReservationExpired` returns false whenever the legacy
`Reserved` flag is unset or the legacy expiry pointer is nil, however old the
stored expiry instant; consequently the reconciler never clears such a legacy
record. -/
theorem legacy_unset_never_cleared (w : Wish) (now : Int)
    (h : w.status.reserved = false ∨ w.status.reservationExpires = none) :
    w.IsReservationExpired now = false ∧
    (srcReconcile w now).wish.status.reserved = w.status.reserved ∧
    (srcReconcile w now).wish.status.reservedAt = w.status.reservedAt ∧
    (srcReconcile w now).wish.status.reservationExpires = w.status.reservationExpires := by
  have hexp : w.IsReservationExpired now = false := by
    unfold Wish.IsReservationExpired
    rcases h with h | h
    · simp [h]
    · cases hr : w.status.reserved <;> simp [h, hr]
  have hwish := srcReconcile_wish_eq w now
  rw [hexp] at hwish
  simp only [Bool.false_eq_true, if_false] at hwish
  rw [hwish]
  exact ⟨hexp, rfl, rfl, rfl⟩

/-- Witness for claim C10 at a concrete unreserved wish with a long-past
stored expiry: nothing is cleared at `now = 0`. -/
theorem legacy_unset_never_cleared_witness :
    demoWishStaleExpiry.IsReservationExpired 0 = false ∧
    (srcReconcile demoWishStaleExpiry 0).wish.status.reservationExpires =
      some (-(1000000 * timeHour)) :=
  ⟨(legacy_unset_never_cleared demoWishStaleExpiry 0 (Or.inl rfl)).1,
   (legacy_unset_never_cleared demoWishStaleExpiry 0 (Or.inl rfl)).2.2.2⟩

/-- The `requeueAfter` returned by the `src/` controller equals
`computeRequeue` on the input wish. -/
theorem srcReconcile_requeue_eq (w : Wish) (now : Int) :
    (srcReconcile w now).requeueAfter = computeRequeue w now := by
  have hframe : Wish.IsReservationExpired
      { w with status := { w.status with active := !(w.IsExpired now) } } now =
      w.IsReservationExpired now := rfl
  unfold srcReconcile computeRequeue requeueFromTtl
  dsimp only
  by_cases h1 : (w.status.active != !(w.IsExpired now)) = true
  · simp only [h1, if_true]
    simp only [hframe]
    by_cases h2 : w.IsReservationExpired now = true
    · simp only [h2, if_true]
      rfl
    · simp only [Bool.not_eq_true] at h2
      simp only [h2, Bool.false_eq_true, if_false]
  · simp only [Bool.not_eq_true] at h1
    simp only [h1, Bool.false_eq_true, if_false]
    by_cases h2 : w.IsReservationExpired now = true
    · simp only [h2, if_true]
      rfl
    · simp only [Bool.not_eq_true] at h2
      simp only [h2, Bool.false_eq_true, if_false]

/-- The TTL part of the requeue equals the TTL wake candidate (with `0` for
"no candidate"). -/
theorem reqTtl_eq (w : Wish) (now : Int) :
    requeueFromTtl w now = (ttlWakeCandidate w now).getD 0 := by
  unfold requeueFromTtl ttlWakeCandidate Wish.IsExpired
  cases h : w.spec.ttl with
  | none => simp
  | some t =>
    dsimp only
    split_ifs <;> simp_all

/-- An applicable TTL wake candidate is strictly positive. -/
theorem ttlC_pos (w : Wish) (now : Int) (d : Int)
    (h : ttlWakeCandidate w now = some d) : 0 < d := by
  unfold ttlWakeCandidate at h
  cases ht : w.spec.ttl with
  | none => rw [ht] at h; exact absurd h (by simp)
  | some t =>
    rw [ht] at h
    dsimp only at h
    split_ifs at h with hc
    · obtain ⟨h1, h2⟩ := hc
      have h3 : w.creationTimestamp + t - now = d := Option.some.inj h
      exact h3 ▸ h2

/-- Claim C7: the wake delay returned by reconciliation equals the minimum
over the applicable positive candidates (time until TTL expiry when the item
is active with a TTL set, and time until the stored active reservation
expiry when one exists); when neither candidate applies the result is zero
(no scheduled wake). -/
theorem reconcile_wake_delay (w : Wish) (now : Int) :
    (srcReconcile w now).requeueAfter =
      minWakeDelay (ttlWakeCandidate w now) (reservationWakeCandidate w now) := by
  rw [srcReconcile_requeue_eq]
  have hq := reqTtl_eq w now
  unfold computeRequeue
  dsimp only
  unfold Wish.IsReservationExpired reservationWakeCandidate
  cases hRes : w.status.reserved with
  | false =>
    simp only [Bool.not_false, if_true, Bool.false_eq_true, if_false]
    rcases hT : ttlWakeCandidate w now with _ | d <;>
      rw [hT] at hq <;> simp_all [minWakeDelay]
  | true =>
    simp only [Bool.not_true, Bool.false_eq_true, if_false, if_true]
    cases hRex : w.status.reservationExpires with
    | none =>
      rcases hT : ttlWakeCandidate w now with _ | d <;>
        rw [hT] at hq <;> simp_all [minWakeDelay]
    | some e =>
      dsimp only
      rcases hT : ttlWakeCandidate w now with _ | d
      · rw [hT] at hq
        simp only [Option.getD_none] at hq
        rw [hq]
        split_ifs <;>
          simp only [decide_eq_true_eq, decide_eq_false_iff_not, not_lt, not_or,
            eq_self_iff_true, true_or, or_true, not_true, not_false_iff] at * <;>
          simp only [minWakeDelay] <;> omega
      · have hd := ttlC_pos w now d hT
        rw [hT] at hq
        simp only [Option.getD_some] at hq
        rw [hq]
        split_ifs <;>
          (try simp only [decide_eq_true_eq, decide_eq_false_iff_not, not_lt, not_or,
            eq_self_iff_true, true_or, or_true, not_true, not_false_iff] at *) <;>
          simp only [minWakeDelay] <;> omega

/-- Claim C8 counterexample: an item whose legacy record is already expired
satisfies the claim hypotheses (legacy record present, empty list), yet one
reconciliation leaves zero reservations, not exactly one converted
Reservation preserving the legacy instants -- the same pass sweeps it. -/
theorem legacy_migration_counterexample :
    legacyExpiredWish.status.reserved = true ∧
    legacyExpiredWish.status.reservedAt = some (-7200) ∧
    legacyExpiredWish.status.reservationExpires = some (-3600) ∧
    legacyExpiredWish.status.reservations = [] ∧
    (reconcileStatusUpdate legacyExpiredWish 0).status.reservations = [] ∧
    ¬ (reconcileStatusUpdate legacyExpiredWish 0).status.reservations =
        [{ quantity := 1, createdAt := -7200, expiresAt := -3600 }] := by
  decide

/-- Claim C8 (amended): for every item carrying a legacy single-reservation
record and an empty multi-reservation list whose legacy expiry is still
strictly in the future, one reconciliation converts the record into exactly
one Reservation preserving the legacy created-at and expires-at and clears
the legacy fields, and a second reconciliation still yields exactly that one
Reservation, never two; an already-expired legacy record is instead swept in
the same pass, leaving zero reservations. -/
theorem legacy_migration_idempotent (w : Wish) (now ca ea : Int)
    (hres : w.status.reserved = true)
    (hca : w.status.reservedAt = some ca)
    (hea : w.status.reservationExpires = some ea)
    (hemp : w.status.reservations = [])
    (hfuture : now < ea) :
    (reconcileStatusUpdate w now).status.reservations =
      [{ quantity := 1, createdAt := ca, expiresAt := ea }] ∧
    (reconcileStatusUpdate w now).status.reserved = false ∧
    (reconcileStatusUpdate w now).status.reservedAt = none ∧
    (reconcileStatusUpdate w now).status.reservationExpires = none ∧
    (reconcileStatusUpdate (reconcileStatusUpdate w now) now).status.reservations =
      [{ quantity := 1, createdAt := ca, expiresAt := ea }] := by
  have hkeep : sweepReservations [{ quantity := 1, createdAt := ca, expiresAt := ea }] now =
      [{ quantity := 1, createdAt := ca, expiresAt := ea }] := by
    rw [sweepReservations_eq_filter]
    simp [hfuture]
  have h1 : reconcileStatusUpdate w now =
      { w with status :=
          { reserved := false
            reservedAt := none
            reservationExpires := none
            active := !(w.IsExpired now)
            reservations := [{ quantity := 1, createdAt := ca, expiresAt := ea }] } } := by
    unfold reconcileStatusUpdate migrateLegacy
    dsimp only
    rw [hres, hca, hea, hemp]
    split_ifs with hcond
    · dsimp only
      rw [hkeep]
    · exact absurd ⟨rfl, rfl⟩ hcond
  have h2 : reconcileStatusUpdate (reconcileStatusUpdate w now) now =
      reconcileStatusUpdate w now := by
    rw [h1]
    unfold reconcileStatusUpdate migrateLegacy
    dsimp only
    simp only [Bool.false_eq_true, false_and, if_false]
    rw [hkeep]
    rfl
  rw [h2, h1]
  exact ⟨rfl, rfl, rfl, rfl, rfl⟩

/-- Witness for amended claim C8 at a concrete unexpired legacy record:
one pass yields exactly one converted Reservation and a second pass does not
duplicate it. -/
theorem legacy_migration_idempotent_witness :
    (reconcileStatusUpdate demoLegacyWish 0).status.reservations =
      [{ quantity := 1, createdAt := -100, expiresAt := 500 }] ∧
    (reconcileStatusUpdate (reconcileStatusUpdate demoLegacyWish 0) 0).status.reservations =
      [{ quantity := 1, createdAt := -100, expiresAt := 500 }] :=
  ⟨(legacy_migration_idempotent demoLegacyWish 0 (-100) 500 rfl rfl rfl rfl
      (by decide)).1,
   (legacy_migration_idempotent demoLegacyWish 0 (-100) 500 rfl rfl rfl rfl
      (by decide)).2.2.2.2⟩

/-- Claim C9: for every reserve request on an existing item with valid weeks
and quantity: zero availability fails with FullyReserved (HTTP 409) and no
update is attempted; a request exceeding availability fails with
QuantityExceedsAvailable (HTTP 400) reporting the available amount, with no
update attempted; otherwise exactly one reservation with `created_at = now`,
`expires_at = now + weeks * 7 days` and the requested quantity is appended
and the updated item is returned. -/
theorem reserve_admission (wish : Wish) (weeks q now : Int)
    (hw1 : minWeeks ≤ weeks) (hw2 : weeks ≤ maxWeeks) (hq : 1 ≤ q) :
    (wish.AvailableQuantity = 0 →
      handleReserve (some wish) weeks (some q) now true =
        { response := .fullyReserved, storeGets := 1, storeWrite := none }) ∧
    (wish.AvailableQuantity ≠ 0 → wish.AvailableQuantity < q →
      handleReserve (some wish) weeks (some q) now true =
        { response := .quantityExceeds wish.AvailableQuantity, storeGets := 1,
          storeWrite := none }) ∧
    (wish.AvailableQuantity ≠ 0 → q ≤ wish.AvailableQuantity →
      handleReserve (some wish) weeks (some q) now true =
        { response := .ok (appendReservation wish q now weeks), storeGets := 1,
          storeWrite := some (appendReservation wish q now weeks) }) := by
  simp only [minWeeks, maxWeeks] at hw1 hw2
  have hvw : ¬ (weeks < minWeeks ∨ maxWeeks < weeks) := by
    simp only [minWeeks, maxWeeks]
    omega
  have hvq : ¬ (q < 1) := by omega
  refine ⟨fun h0 => ?_, fun h0 hlt => ?_, fun h0 hle => ?_⟩ <;>
    (unfold handleReserve; rw [if_neg hvw]; dsimp only; rw [if_neg hvq];
      unfold reserveLoaded; dsimp only)
  · rw [if_pos h0]
  · rw [if_neg h0, if_pos hlt]
  · rw [if_neg h0, if_neg (not_lt.mpr hle)]
    rfl

/-- Witness for claim C9 at the concrete spec example: quantity 5, no
reservations, request `quantity = 3, weeks = 2` succeeds and appends the
reservation. -/
theorem reserve_admission_witness :
    handleReserve (some demoWishFive) 2 (some 3) 0 true =
      { response := .ok (appendReservation demoWishFive 3 0 2), storeGets := 1,
        storeWrite := some (appendReservation demoWishFive 3 0 2) } :=
  (reserve_admission demoWishFive 2 3 0 (by decide) (by decide) (by decide)).2.2
    (by decide) (by decide)

/-- Claim C1, evaluated at the failing input: with valid weeks and quantity
and available stock, when the store rejects the single conditional status
update the handler performs exactly one read and one write attempt and
returns the generic 500 reserve-failure response; it neither reloads the
item, nor retries, nor reports a conflict-specific result, so the admission
is a single unguarded read-then-write rather than the compare-and-swap loop
the specification requires. -/
theorem reserve_conflict_no_retry :
    handleReserve (some conflictedWish) 2 (some 3) 0 false =
      { response := .reserveFailed, storeGets := 1,
        storeWrite := some (appendReservation conflictedWish 3 0 2) } := by
  decide

end WishOperator
